import Mathlib

/-!
Verification of the json_exporter extraction-and-metric-construction
pipeline (prometheus-community/json_exporter).

The Go sources are shallowly embedded: pure Go functions become Lean
functions; values of Go's `float64` are modelled by `GoFloat` (an exact
rational plus the NaN and infinity points — the model keeps the exact
decimal value instead of rounding to the nearest binary64, which is
faithful on every value the theorems touch); Go's `(T, error)` returns
become `Except String T` (a nil error is `.ok`); external libraries
(the jsonpath engines, `encoding/json`, the CEL runtime) are modelled as
explicit parameters, so every theorem about the collector holds for every
behaviour of those libraries.
-/

/-! ## Go float64 values and strconv.ParseFloat / strconv.ParseBool

`SanitizeValue` (src/exporter/util.go, lines 39-61) delegates to
`strconv.ParseFloat(s, 64)` and `strconv.ParseBool(s)`; both stdlib
functions are modelled here from their documented grammar. -/

set_option maxRecDepth 8000
set_option exponentiation.threshold 1100

deriving instance DecidableEq for Except

/-- A Go `float64` value: NaN, a signed infinity, or a finite value
(carried as the exact rational the text denotes). -/
inductive GoFloat where
  | nan : GoFloat
  | inf : Bool → GoFloat
  | finite : ℚ → GoFloat
deriving DecidableEq

/-- Why a strconv parse failed: `strconv.ErrSyntax` or `strconv.ErrRange`. -/
inductive ErrReason where
  | badInput : ErrReason
  | rangeErr : ErrReason
deriving DecidableEq

/-- Go's `strconv.NumError`: the function, the input, and the reason. -/
structure NumError where
  fn : String
  num : String
  reason : ErrReason
deriving DecidableEq

/-- `NumError.Error()`: how Go formats the error
(e.g. `strconv.ParseFloat: parsing "abcd": invalid syntax`). -/
def errString (e : NumError) : String :=
  "strconv." ++ e.fn ++ ": parsing " ++ "\"" ++ e.num ++ "\"" ++ ": " ++
    (match e.reason with
      | .badInput => "invalid syntax"
      | .rangeErr => "value out of range")

/-- Go `lower(c) = c | 0x20` restricted to ASCII letters. -/
def lowerAscii (c : Char) : Char :=
  if 'A' ≤ c ∧ c ≤ 'Z' then Char.ofNat (c.toNat + 32) else c

/-- strconv's `special`: the case-insensitive specials "nan", and
optionally-signed "inf" / "infinity", matched against the whole input
(ParseFloat requires full consumption). A signed "nan" does not match. -/
def parseSpecial (cs : List Char) : Option GoFloat :=
  let l := cs.map lowerAscii
  if l = "nan".data then some .nan
  else
    match l with
    | '+' :: rest =>
        if rest = "inf".data ∨ rest = "infinity".data then some (.inf false) else none
    | '-' :: rest =>
        if rest = "inf".data ∨ rest = "infinity".data then some (.inf true) else none
    | rest =>
        if rest = "inf".data ∨ rest = "infinity".data then some (.inf false) else none

/-- Is `c` a hexadecimal digit? -/
def isHexDigitCh (c : Char) : Bool :=
  c.isDigit ∨ ('a' ≤ c ∧ c ≤ 'f') ∨ ('A' ≤ c ∧ c ≤ 'F')

/-- The loop of strconv's `underscoreOK`: `saw` is '0' after a digit (or the
base prefix), '_' after an underscore, '!' after anything else. An underscore
must follow a digit and be followed by a digit. -/
def underscoreLoop (hex : Bool) : Char → List Char → Bool
  | saw, [] => saw ≠ '_'
  | saw, c :: rest =>
    if c = '_' then
      if saw ≠ '0' then false else underscoreLoop hex '_' rest
    else if c.isDigit ∨ (hex ∧ isHexDigitCh c) then underscoreLoop hex '0' rest
    else if saw = '_' then false
    else underscoreLoop hex '!' rest

/-- strconv's `underscoreOK`: underscores may separate digits (and may follow
a `0x` base prefix). -/
def underscoreOK (cs : List Char) : Bool :=
  let cs1 := match cs with
    | c :: r => if c = '-' ∨ c = '+' then r else cs
    | [] => cs
  match cs1 with
  | '0' :: c :: r =>
      if lowerAscii c = 'x' then underscoreLoop true '0' r
      else underscoreLoop false '^' cs1
  | _ => underscoreLoop false '^' cs1

/-- Decimal digit string to ℕ. -/
def digitsToNat (ds : List Char) : ℕ :=
  ds.foldl (fun a c => a * 10 + (c.toNat - 48)) 0

/-- Hex digit value of a character (0 for non-hex-digits; only applied to
hex digits). -/
def hexVal (c : Char) : ℕ :=
  if c.isDigit then c.toNat - 48
  else if 'a' ≤ c ∧ c ≤ 'f' then c.toNat - 87
  else if 'A' ≤ c ∧ c ≤ 'F' then c.toNat - 55
  else 0

/-- Hex digit string to ℕ. -/
def hexDigitsToNat (ds : List Char) : ℕ :=
  ds.foldl (fun a c => a * 16 + hexVal c) 0

/-- `m * 10^e` as an exact rational (`e` may be negative). -/
def qpow10 (m : ℕ) (e : ℤ) : ℚ :=
  if 0 ≤ e then ((m * 10 ^ e.toNat : ℕ) : ℚ)
  else (m : ℚ) / ((10 ^ (-e).toNat : ℕ) : ℚ)

/-- `m * 2^e` as an exact rational (`e` may be negative). -/
def qpow2 (m : ℕ) (e : ℤ) : ℚ :=
  if 0 ≤ e then ((m * 2 ^ e.toNat : ℕ) : ℚ)
  else (m : ℚ) / ((2 ^ (-e).toNat : ℕ) : ℚ)

/-- Exponent part of a float literal: optional sign then at least one decimal
digit, consuming the whole remainder. -/
def parseExpPart (cs : List Char) : Option ℤ :=
  let (neg, ds) := match cs with
    | '+' :: r => (false, r)
    | '-' :: r => (true, r)
    | r => (false, r)
  if ds ≠ [] ∧ ds.all Char.isDigit then
    some (if neg then -(digitsToNat ds : ℤ) else (digitsToNat ds : ℤ))
  else none

/-- Decimal mantissa and optional `e` exponent (readFloat's decimal branch);
whole remainder must be consumed; at least one mantissa digit required. -/
def parseDecFloat (neg : Bool) (cs : List Char) : Option ℚ :=
  let (ip, rest1) := cs.span Char.isDigit
  let (fp, rest2) := match rest1 with
    | '.' :: r => r.span Char.isDigit
    | r => ([], r)
  if ip.length + fp.length = 0 then none
  else
    let mant := digitsToNat (ip ++ fp)
    let signed : ℚ → ℚ := fun q => if neg then -q else q
    match rest2 with
    | [] => some (signed (qpow10 mant (-(fp.length : ℤ))))
    | c :: r =>
        if lowerAscii c = 'e' then
          match parseExpPart r with
          | some e => some (signed (qpow10 mant (e - (fp.length : ℤ))))
          | none => none
        else none

/-- Hex mantissa and mandatory `p` exponent (readFloat's hex branch); `cs` is
the text after the `0x` prefix. -/
def parseHexFloat (neg : Bool) (cs : List Char) : Option ℚ :=
  let (ip, rest1) := cs.span fun c => isHexDigitCh c
  let (fp, rest2) := match rest1 with
    | '.' :: r => r.span fun c => isHexDigitCh c
    | r => ([], r)
  if ip.length + fp.length = 0 then none
  else
    let mant := hexDigitsToNat (ip ++ fp)
    let signed : ℚ → ℚ := fun q => if neg then -q else q
    match rest2 with
    | c :: r =>
        if lowerAscii c = 'p' then
          match parseExpPart r with
          | some e => some (signed (qpow2 mant (e - 4 * (fp.length : ℤ))))
          | none => none
        else none
    | [] => none

/-- The number part of ParseFloat: sign, then the hex or decimal grammar. -/
def parseFloatCore (cs0 : List Char) : Option ℚ :=
  let (neg, cs1) := match cs0 with
    | '+' :: r => (false, r)
    | '-' :: r => (true, r)
    | r => (false, r)
  match cs1 with
  | '0' :: x :: r =>
      if lowerAscii x = 'x' then parseHexFloat neg r
      else parseDecFloat neg cs1
  | _ => parseDecFloat neg cs1

/-- Values at least half an ULP above the largest finite float64 overflow
(`strconv.ErrRange`): the threshold is `2^1024 - 2^970`. -/
def overflowBound : ℚ := ((2 ^ 1024 - 2 ^ 970 : ℕ) : ℚ)

/-- Model of Go `strconv.ParseFloat(s, 64)`: the specials, then the
underscore rule, then the decimal/hex grammar, with the overflow range
check. A finite result keeps the exact denoted rational. -/
def ParseFloat (s : String) : Except NumError GoFloat :=
  match parseSpecial s.data with
  | some f => .ok f
  | none =>
    if underscoreOK s.data then
      match parseFloatCore (s.data.filter fun c => c ≠ '_') with
      | some q =>
          if overflowBound ≤ q ∨ q ≤ -overflowBound then
            .error ⟨"ParseFloat", s, .rangeErr⟩
          else .ok (.finite q)
      | none => .error ⟨"ParseFloat", s, .badInput⟩
    else .error ⟨"ParseFloat", s, .badInput⟩

/-- Model of Go `strconv.ParseBool`: exactly the twelve accepted literals. -/
def ParseBool (s : String) : Except NumError Bool :=
  if s = "1" ∨ s = "t" ∨ s = "T" ∨ s = "TRUE" ∨ s = "true" ∨ s = "True" then
    .ok true
  else if s = "0" ∨ s = "f" ∨ s = "F" ∨ s = "FALSE" ∨ s = "false" ∨ s = "False" then
    .ok false
  else .error ⟨"ParseBool", s, .badInput⟩

/-- `SanitizeValue` (src/exporter/util.go, lines 39-61): float parse, then
bool parse, then the `"<nil>"` sentinel, else an error joining both parse
failures with `"; "`. -/
def SanitizeValue (s : String) : Except String GoFloat :=
  match ParseFloat s with
  | .ok v => .ok v
  | .error e1 =>
    match ParseBool s with
    | .ok true => .ok (.finite 1)
    | .ok false => .ok (.finite 0)
    | .error e2 =>
      if s = "<nil>" then .ok .nan
      else .error (errString e1 ++ "; " ++ errString e2)

/-! ## strconv.ParseInt and SanitizeIntValue -/

/-- `2^64 - 1`, strconv ParseUint's `maxVal` for bitSize 64. -/
def uintMax : ℕ := 2 ^ 64 - 1

/-- strconv ParseUint's `cutoff` for base 10: `maxVal/10 + 1`. -/
def uintCutoff : ℕ := uintMax / 10 + 1

/-- The accumulation loop of `strconv.ParseUint(s, 10, 64)`: per digit, fail
once the accumulator reaches the cutoff or the next value would pass
`maxVal` (in Go the second check is the wrap-around test `n1 < n || n1 >
maxVal`; over ℕ both amount to `acc*10+d > uintMax`). -/
def parseUintLoop : ℕ → List Char → Option ℕ
  | acc, [] => some acc
  | acc, c :: rest =>
    if c.isDigit then
      let d := c.toNat - 48
      if acc ≥ uintCutoff ∨ acc * 10 + d > uintMax then none
      else parseUintLoop (acc * 10 + d) rest
    else none

/-- Model of `strconv.ParseUint(s, 10, 64)` on the digit text (no sign):
fails on an empty string, a non-digit, or overflow past `2^64 - 1`. -/
def ParseUint64 (cs : List Char) : Option ℕ :=
  match cs with
  | [] => none
  | _ => parseUintLoop 0 cs

/-- The sign handling of `strconv.ParseInt`: `if s[0] == '+' { s = s[1:] }
else if s[0] == '-' { neg = true; s = s[1:] }`. -/
def splitSign (cs : List Char) : Bool × List Char :=
  match cs with
  | [] => (false, [])
  | c :: r =>
    if c = '+' then (false, r)
    else if c = '-' then (true, r)
    else (false, c :: r)

/-- Model of `strconv.ParseInt(s, 10, 64)`: optional sign, ParseUint on the
rest, then the signed-range checks against `cutoff = 2^63`. -/
def ParseInt64 (s : String) : Option ℤ :=
  match s.data with
  | [] => none
  | cs =>
    let sd := splitSign cs
    match ParseUint64 sd.2 with
    | none => none
    | some un =>
      if sd.1 = false ∧ un ≥ 2 ^ 63 then none
      else if sd.1 = true ∧ un > 2 ^ 63 then none
      else some (if sd.1 then -(un : ℤ) else (un : ℤ))

/-- Does `s` have the shape of an optionally-signed nonempty decimal digit
string? (The syntax `strconv.ParseInt(s, 10, 64)` accepts, range apart.) -/
def decIntSyntaxOk (s : String) : Bool :=
  (splitSign s.data).2 ≠ [] ∧ ((splitSign s.data).2.all Char.isDigit)

/-- The integer an optionally-signed decimal digit string denotes. -/
def decIntVal (s : String) : ℤ :=
  if (splitSign s.data).1 then -(digitsToNat (splitSign s.data).2 : ℤ)
  else (digitsToNat (splitSign s.data).2 : ℤ)

/-- `SanitizeIntValue` (src/exporter/util.go, lines 63-74): a single
`strconv.ParseInt(s, 10, 64)` tier; any failure is returned as the
formatted parse error. -/
def SanitizeIntValue (s : String) : Except String ℤ :=
  match ParseInt64 s with
  | some v => .ok v
  | none =>
      .error (errString ⟨"ParseInt", s,
        if decIntSyntaxOk s then .rangeErr else .badInput⟩)

/-- `MakeMetricName` (src/exporter/util.go, lines 35-37): join with `_`. -/
def MakeMetricName (parts : List String) : String :=
  String.intercalate "_" parts

/-- Is an `Except` an error? (Go: `err != nil`.) -/
def Except.isError {ε α : Type} : Except ε α → Bool
  | .error _ => true
  | .ok _ => false

example : SanitizeValue "1234" = .ok (.finite 1234) := by decide
example : SanitizeValue "TRUE" = .ok (.finite 1) := by decide
example : SanitizeValue "FALSE" = .ok (.finite 0) := by decide
example : SanitizeValue "<nil>" = .ok .nan := by decide
example : (SanitizeValue "abcd").isError = true := by decide
example : (SanitizeValue "").isError = true := by decide
example : (SanitizeValue "tRuE").isError = true := by decide
example : SanitizeIntValue "1699999999999" = .ok 1699999999999 := by decide
example : (SanitizeIntValue "<nil>").isError = true := by decide

/-! ## JSON values and the external-library boundary

The collector (src/exporter/collector.go) drives three external libraries:
`k8s.io/client-go/util/jsonpath` (inside `extractValue`), `encoding/json`
(`json.Marshal` / `json.Unmarshal`), and — in the CEL variant — the cel-go
runtime. Their behaviour is not part of this repository, so it enters the
embedding as an explicit `Engine` parameter: every collector theorem below
is proved for every engine. -/

/-- A parsed JSON document (`interface{}` holding `encoding/json` data). -/
inductive Json where
  | null : Json
  | bool : Bool → Json
  | num : ℚ → Json
  | str : String → Json
  | arr : List Json → Json
  | obj : List (String × Json) → Json

/-- The external functions the collector calls, as one parameter:
`extract data path enableJSONOutput` stands for `extractValue`'s
unmarshal-parse-execute-unquote pipeline over the jsonpath library
(`.error` = any of its failure returns), `marshal` for `json.Marshal`, and
`unmarshalArr` for `json.Unmarshal` into `[]interface{}`. -/
structure Engine where
  extract : String → String → Bool → Except String String
  marshal : Json → Except String String
  unmarshalArr : String → Except String (List Json)

/-- A fully-resolved `*prometheus.Desc`: name, help and the variable label
names fixed at construction. -/
structure Desc where
  name : String
  help : String
  variableLabels : List String
deriving DecidableEq

/-- `JSONMetric` (src/exporter/collector.go, lines 34-41). The Go
`config.ScrapeType`, engine and value types are string-typed. -/
structure JSONMetric where
  desc : Desc
  type : String
  engineType : String
  keyJSONPath : String
  valueJSONPath : String
  labelsJSONPaths : List String
  valueType : String
  epochTimestampJSONPath : String
deriving DecidableEq

/-- An emitted sample: what `prometheus.MustNewConstMetric` plus an optional
`prometheus.NewMetricWithTimestamp` wrapper carry to the registry. -/
structure Sample where
  desc : Desc
  valueType : String
  value : GoFloat
  labelValues : List String
  timestampMs : Option ℤ
deriving DecidableEq

/-- `prometheus.MustNewConstMetric`: builds the sample. It panics exactly
when the label-value count differs from the descriptor's variable-label
count — that panic condition is `constMetricPanics` below. -/
def MustNewConstMetric (desc : Desc) (vt : String) (v : GoFloat)
    (labelValues : List String) : Sample :=
  { desc := desc, valueType := vt, value := v, labelValues := labelValues,
    timestampMs := none }

/-- The condition under which Go's `MustNewConstMetric` would panic. -/
def constMetricPanics (desc : Desc) (labelValues : List String) : Prop :=
  labelValues.length ≠ desc.variableLabels.length

/-! ## The collector (src/exporter/collector.go, first document) -/

/-- `extractLabels` (lines 156-166): one label value per path, in order;
a failing extraction leaves the zero value `""` at that position. -/
def extractLabels (E : Engine) (data : String) (paths : List String) :
    List String :=
  paths.map fun path =>
    match E.extract data path false with
    | .ok result => result
    | .error _ => ""

/-- The nested-object fallback loop of `extractDynamicLabels` (lines
185-204): first entry of the object whose marshalled value the path
extracts from; `""` when none does. -/
def firstNestedLabel (E : Engine) (path : String) :
    List (String × Json) → String
  | [] => ""
  | (_, v) :: rest =>
    match E.marshal v with
    | .error _ => firstNestedLabel E path rest
    | .ok nested =>
      match E.extract nested path false with
      | .ok result => result
      | .error _ => firstNestedLabel E path rest

/-- `extractDynamicLabels` (lines 169-215): per path, the special
`{__name__}` key extraction, else extraction from the re-marshalled
element with the nested-object fallback; every failure leaves `""`.
(Go ranges over its map in unspecified order; the model uses the object's
entry order.) -/
def extractDynamicLabels (E : Engine) (data : Json) (paths : List String) :
    List String :=
  paths.map fun path =>
    if path = "\x7b__name__\x7d" then
      match data with
      | .obj ((k, _) :: _) => k
      | _ => ""
    else
      match E.marshal data with
      | .error _ => ""
      | .ok jdata =>
        match E.extract jdata path false with
        | .ok result => result
        | .error _ =>
          match data with
          | .obj entries => firstNestedLabel E path entries
          | _ => ""

/-- The nested-object fallback loop of `extractDynamicValue` (lines
231-243): first object entry whose marshalled value yields the path. -/
def firstNestedValue (E : Engine) (path : String) :
    List (String × Json) → Except String String
  | [] => .error ("value not found in any nested object for path: " ++ path)
  | (_, v) :: rest =>
    match E.marshal v with
    | .error _ => firstNestedValue E path rest
    | .ok nested =>
      match E.extract nested path false with
      | .ok result => .ok result
      | .error _ => firstNestedValue E path rest

/-- `extractDynamicValue` (lines 218-247): extraction from the re-marshalled
element, then the nested-object fallback for dynamic objects. -/
def extractDynamicValue (E : Engine) (data : Json) (path : String) :
    Except String String :=
  match E.marshal data with
  | .error e => .error e
  | .ok jdata =>
    match E.extract jdata path false with
    | .ok result => .ok result
    | .error _ =>
      match data with
      | .obj entries => firstNestedValue E path entries
      | _ => .error ("value not found for path: " ++ path)

/-- `timestampMetric` (lines 247-263): no-op for an empty path; on
extraction or integer-sanitization failure the metric is returned
unchanged; on success the timestamp is the extracted value as milliseconds
since epoch (`time.UnixMilli`). -/
def timestampMetric (E : Engine) (m : JSONMetric) (data : String)
    (pm : Sample) : Sample :=
  if m.epochTimestampJSONPath = "" then pm
  else
    match E.extract data m.epochTimestampJSONPath false with
    | .error _ => pm
    | .ok ts =>
      match SanitizeIntValue ts with
      | .error _ => pm
      | .ok epochTime => { pm with timestampMs := some epochTime }

/-- The `config.ValueScrape` branch of `Collect` (lines 52-71): extract the
key path over the whole document, sanitize, and emit one sample with
per-path labels and the optional timestamp; any failure emits nothing. -/
def collectValueBranch (E : Engine) (data : String) (m : JSONMetric) :
    List Sample :=
  match E.extract data m.keyJSONPath false with
  | .error _ => []
  | .ok value =>
    match SanitizeValue value with
    | .error _ => []
    | .ok floatValue =>
      [timestampMetric E m data
        (MustNewConstMetric m.desc m.valueType floatValue
          (extractLabels E data m.labelsJSONPaths))]

/-- The body of the per-element loop in `Collect`'s `config.ObjectScrape`
branch (lines 83-110): re-marshal the element, extract dynamic labels,
extract and sanitize the value, emit with the optional per-element
timestamp; `none` models each `continue`. -/
def processElement (E : Engine) (m : JSONMetric) (data : Json) :
    Option Sample :=
  match E.marshal data with
  | .error _ => none
  | .ok jdata =>
    let dynamicLabels := extractDynamicLabels E data m.labelsJSONPaths
    match extractDynamicValue E data m.valueJSONPath with
    | .error _ => none
    | .ok value =>
      match SanitizeValue value with
      | .error _ => none
      | .ok floatValue =>
        some (timestampMetric E m jdata
          (MustNewConstMetric m.desc m.valueType floatValue dynamicLabels))

/-- The per-element loop itself: elements in document order, a failing
element skipped by `continue`. -/
def collectObjectElems (E : Engine) (m : JSONMetric) :
    List Json → List Sample
  | [] => []
  | d :: rest =>
    match processElement E m d with
    | none => collectObjectElems E m rest
    | some s => s :: collectObjectElems E m rest

/-- The `config.ObjectScrape` branch of `Collect` (lines 73-114): key-path
extraction in JSON-output mode, re-parse as an array, then the per-element
loop; a key-path or unmarshal failure emits nothing for the descriptor. -/
def collectObjectBranch (E : Engine) (data : String) (m : JSONMetric) :
    List Sample :=
  match E.extract data m.keyJSONPath true with
  | .error _ => []
  | .ok values =>
    match E.unmarshalArr values with
    | .error _ => []
    | .ok jsonData => collectObjectElems E m jsonData

/-- `Collect` (lines 49-121): each descriptor independently, by scrape
type; an unknown type emits nothing. -/
def collectMetric (E : Engine) (data : String) (m : JSONMetric) :
    List Sample :=
  if m.type = "value" then collectValueBranch E data m
  else if m.type = "object" then collectObjectBranch E data m
  else []

/-- The whole `Collect` loop over the configured descriptors. -/
def Collect (E : Engine) (data : String) (ms : List JSONMetric) :
    List Sample :=
  (ms.map (collectMetric E data)).flatten

/-! ## The descriptor builder (src/exporter/util.go, lines 76-139) -/

/-- `config.Metric`, the declarative source form of one metric. Go's
`Labels` and `Values` are YAML mappings; the model keeps them as entry
lists (Go ranges over them in unspecified order). -/
structure ConfigMetric where
  name : String
  type : String
  help : String
  path : String
  labels : List (String × String)
  values : List (String × String)
  engine : String
  epochTimestamp : String
  valueType : String

/-- `config.Module`, restricted to the field `CreateMetricsList` reads. -/
structure ConfigModule where
  metrics : List ConfigMetric

/-- The `prometheus.ValueType` selected by the leading switch of
`CreateMetricsList`: gauge and counter pass through, anything else is
untyped. -/
def resolveValueType (vt : String) : String :=
  if vt = "gauge" then "gauge"
  else if vt = "counter" then "counter"
  else "untyped"

/-- One iteration of `CreateMetricsList`'s loop: a `value` metric yields one
descriptor, an `object` metric one descriptor per `values` entry (name
joined with `_`, `ValueJSONPath` that entry's expression), an unknown type
aborts the whole build. -/
def createForMetric (metric : ConfigMetric) : Except String (List JSONMetric) :=
  let valueType := resolveValueType metric.valueType
  if metric.type = "value" then
    .ok [{ desc := { name := metric.name, help := metric.help,
                     variableLabels := metric.labels.map Prod.fst },
           type := "value",
           engineType := metric.engine,
           keyJSONPath := metric.path,
           valueJSONPath := "",
           labelsJSONPaths := metric.labels.map Prod.snd,
           valueType := valueType,
           epochTimestampJSONPath := metric.epochTimestamp }]
  else if metric.type = "object" then
    .ok (metric.values.map fun sv =>
      { desc := { name := MakeMetricName [metric.name, sv.1],
                  help := metric.help,
                  variableLabels := metric.labels.map Prod.fst },
        type := "object",
        engineType := metric.engine,
        keyJSONPath := metric.path,
        valueJSONPath := sv.2,
        labelsJSONPaths := metric.labels.map Prod.snd,
        valueType := valueType,
        epochTimestampJSONPath := metric.epochTimestamp })
  else
    .error ("unknown metric type: '" ++ metric.type ++ "', for metric: '" ++
      metric.name ++ "'")

/-- The loop of `CreateMetricsList` over the module's metrics, appending in
configuration order and aborting on the first unknown type. -/
def createMetricsListAux : List ConfigMetric → Except String (List JSONMetric)
  | [] => .ok []
  | metric :: rest =>
    match createForMetric metric with
    | .error e => .error e
    | .ok ms =>
      match createMetricsListAux rest with
      | .error e => .error e
      | .ok more => .ok (ms ++ more)

/-- `CreateMetricsList` (src/exporter/util.go, lines 76-139). -/
def CreateMetricsList (c : ConfigModule) : Except String (List JSONMetric) :=
  createMetricsListAux c.metrics

/-! ## The valueConverter variant (src/unnamed/part_003, lines 95-104)

That generation's `Collect` carries
`ValueConverter map[string]map[string]string`; just before sanitization the
object branch runs:
```
if m.ValueConverter != nil {
    if value_mappings, ok := m.ValueConverter[m.ValueJSONPath]; ok {
        value = strings.ToLower(value)
        if _, ok := value_mappings[value]; ok {
            value = value_mappings[value]
        }
    }
}
```
Note the lower-casing is assigned back to `value` before the lookup, so an
unmapped value flows on lower-cased. -/

/-- Model of Go `strings.ToLower` (ASCII range; every value the theorems
touch is ASCII). -/
def stringsToLower (s : String) : String :=
  String.mk (s.data.map lowerAscii)

/-- Association-list lookup standing for Go map indexing. -/
def alistLookup (m : List (String × String)) (k : String) : Option String :=
  match m.find? fun p => p.1 = k with
  | some p => some p.2
  | none => none

/-- The converter step of part_003's `Collect`: `conv` is the metric's
`ValueConverter` (`none` = nil map), `valuePath` its `ValueJSONPath`. -/
def applyValueConverter (conv : Option (List (String × List (String × String))))
    (valuePath : String) (value : String) : String :=
  match conv with
  | none => value
  | some converter =>
    match converter.find? fun p => p.1 = valuePath with
    | none => value
    | some (_, valueMappings) =>
      let value := stringsToLower value
      match alistLookup valueMappings value with
      | some mapped => mapped
      | none => value

/-! ## The CEL engine (src/unnamed/part_009, `extractValueCEL`)

The cel-go runtime is external; its five calls become parameters. The Go
control flow is kept exactly — in particular the compile-issues branch

```
ast, issues := env.Compile(expression)
if issues != nil && issues.Err() != nil {
    logger.Error("CEL type-check error", ...)
    return "", err
}
```

returns the variable `err`, which at that point still holds the (nil)
error of the succeeding `cel.NewEnv` call, not `issues.Err()`. -/

/-- The external cel-go calls `extractValueCEL` makes, with the JSON
unmarshal of its input: results of `json.Unmarshal`, `cel.NewEnv`,
`env.Compile` (`.2` is `issues.Err()` when non-nil), `env.Program`,
`prg.Eval`, and the two renderings of the output value. -/
structure CELCtx (Env Ast Prg Val : Type) where
  unmarshalObj : Except String (List (String × Json))
  newEnv : Except String Env
  compile : Env → String → Ast × Option String
  program : Env → Ast → Except String Prg
  eval : Prg → Except String Val
  fmtV : Val → String
  valueToJSON : Val → Except String String

/-- `extractValueCEL` (src/unnamed/part_009, lines 171-233), following the
Go statement order; `.ok ""` in the compile-issues branch is the literal
`return "", err` with the stale nil `err`. -/
def extractValueCEL {Env Ast Prg Val : Type} (C : CELCtx Env Ast Prg Val)
    (expression : String) (enableJSONOutput : Bool) : Except String String :=
  match C.unmarshalObj with
  | .error e => .error e
  | .ok _jsonData =>
    match C.newEnv with
    | .error e => .error e
    | .ok env =>
      match (C.compile env expression).2 with
      | some _issuesErr => .ok ""
      | none =>
        let ast := (C.compile env expression).1
        match C.program env ast with
        | .error e => .error e
        | .ok prg =>
          match C.eval prg with
          | .error e => .error e
          | .ok out =>
            if enableJSONOutput then
              match C.valueToJSON out with
              | .error e => .error e
              | .ok res => .ok res
            else .ok (C.fmtV out)

/-! ## The legacy value scraper (src/jsonexporter/scraper.go, lines 73-114)

`ValueScraper.Scrape` walks the jsonpath result stream with an `isFirst`
flag: only the first result is examined ("ignoring non-first value"), and
it sets the gauge when it is numeric, a numeric string, null or a bool. -/

/-- The result types of the `kawamuray/jsonpath` evaluator. -/
inductive JsonPathType where
  | jNumber : JsonPathType
  | jString : JsonPathType
  | jNull : JsonPathType
  | jBool : JsonPathType
  | jObject : JsonPathType
  | jArray : JsonPathType
deriving DecidableEq

/-- One `jsonpath.Result`: its type tag and raw bytes (strings keep their
surrounding quotes, as in the library). -/
structure JsonPathResult where
  type : JsonPathType
  value : List Char
deriving DecidableEq

/-- `ValueScraper.parseValue`: `strconv.ParseFloat(string(bytes), 64)`. -/
def scraperParseValue (bytes : List Char) : Except NumError GoFloat :=
  ParseFloat (String.mk bytes)

/-- The switch inside `ValueScraper.Scrape`'s closure: the gauge value the
first result yields, or `none` when the closure returns without setting
(non-numeric type, or a parse failure). -/
def scrapeResultValue (r : JsonPathResult) : Option GoFloat :=
  match r.type with
  | .jNumber =>
    match scraperParseValue r.value with
    | .ok v => some v
    | .error _ => none
  | .jString =>
    match scraperParseValue (r.value.drop 1 |>.dropLast) with
    | .ok v => some v
    | .error _ => none
  | .jNull => some .nan
  | .jBool =>
    match ParseBool (String.mk r.value) with
    | .ok true => some (.finite 1)
    | .ok false => some (.finite 0)
    | .error _ => none
  | _ => none

/-- The `isFirst` fold of `ValueScraper.Scrape` over the jsonpath result
stream: `acc` is the gauge value set so far. -/
def scrapeLoop : Bool → Option GoFloat → List JsonPathResult → Option GoFloat
  | _, acc, [] => acc
  | isFirst, acc, r :: rest =>
    if isFirst then
      scrapeLoop false
        (match scrapeResultValue r with
          | some v => some v
          | none => acc) rest
    else scrapeLoop false acc rest

/-- `ValueScraper.Scrape`: the gauge value after the whole result stream
(`none` = the gauge was never set). -/
def ValueScraperScrape (results : List JsonPathResult) : Option GoFloat :=
  scrapeLoop true none results

/-! ## Theorems -/

/-- C1 (amended): `SanitizeValue` applies three coercion tiers in order,
first success winning — `strconv.ParseFloat`, then `strconv.ParseBool`
(which accepts exactly `1,t,T,TRUE,true,True` and `0,f,F,FALSE,false,False`,
not every case-insensitive casing of true/false), then the `"<nil>"`
sentinel yielding NaN — and otherwise returns an error joining the
float-parse and bool-parse failure reasons; `"1234"` yields 1234.0, `"TRUE"`
yields 1.0, `"FALSE"` yields 0.0, `"<nil>"` yields NaN without error, and
`"abcd"`, `"{}"`, `"[]"`, `""`, `"''"` each yield an error. -/
theorem sanitizeValue_three_tiers (s : String) :
    (∀ v, ParseFloat s = .ok v → SanitizeValue s = .ok v) ∧
    (∀ e, ParseFloat s = .error e → ParseBool s = .ok true →
      SanitizeValue s = .ok (.finite 1)) ∧
    (∀ e, ParseFloat s = .error e → ParseBool s = .ok false →
      SanitizeValue s = .ok (.finite 0)) ∧
    (∀ e1 e2, ParseFloat s = .error e1 → ParseBool s = .error e2 →
      s = "<nil>" → SanitizeValue s = .ok .nan) ∧
    (∀ e1 e2, ParseFloat s = .error e1 → ParseBool s = .error e2 →
      s ≠ "<nil>" →
      SanitizeValue s = .error (errString e1 ++ "; " ++ errString e2)) ∧
    SanitizeValue "1234" = .ok (.finite 1234) ∧
    SanitizeValue "TRUE" = .ok (.finite 1) ∧
    SanitizeValue "FALSE" = .ok (.finite 0) ∧
    SanitizeValue "<nil>" = .ok .nan ∧
    (SanitizeValue "abcd").isError = true ∧
    (SanitizeValue "\x7b\x7d").isError = true ∧
    (SanitizeValue "[]").isError = true ∧
    (SanitizeValue "").isError = true ∧
    (SanitizeValue "\x27\x27").isError = true := by
  refine ⟨?_, ?_, ?_, ?_, ?_, by decide, by decide, by decide, by decide,
    by decide, by decide, by decide, by decide, by decide⟩
  · intro v hv
    simp [SanitizeValue, hv]
  · intro e hf hb
    simp [SanitizeValue, hf, hb]
  · intro e hf hb
    simp [SanitizeValue, hf, hb]
  · intro e1 e2 h1 h2 h3
    subst h3
    simp [SanitizeValue, h1, h2]
  · intro e1 e2 h1 h2 h3
    simp [SanitizeValue, h1, h2, h3]

/-- C1 witness: the null-sentinel tier at the concrete input `"<nil>"`. -/
theorem sanitizeValue_three_tiers_witness :
    SanitizeValue "<nil>" = .ok .nan :=
  (sanitizeValue_three_tiers "<nil>").2.2.2.1
    ⟨"ParseFloat", "<nil>", .badInput⟩ ⟨"ParseBool", "<nil>", .badInput⟩
    (by decide) (by decide) rfl

/-- C1 counterexample: `"tRuE"` is a case-insensitive casing of `"true"`,
yet `SanitizeValue` rejects it — the bool tier is Go's `ParseBool`, not a
case-insensitive match of true/false. -/
theorem sanitizeValue_caseInsensitive_cex :
    "tRuE".data.map lowerAscii = "true".data ∧
    SanitizeValue "tRuE" ≠ .ok (.finite 1) ∧
    (SanitizeValue "tRuE").isError = true := by
  refine ⟨by decide, by decide, by decide⟩

/-- A digit-accumulation fold never decreases the accumulator. -/
lemma digitsFold_ge (ds : List Char) (acc : ℕ) :
    acc ≤ ds.foldl (fun a c => a * 10 + (c.toNat - 48)) acc := by
  induction ds generalizing acc with
  | nil => simp
  | cons c rest ih =>
    rw [List.foldl_cons]
    exact le_trans (by omega) (ih (acc * 10 + (c.toNat - 48)))

/-- The ParseUint loop succeeds exactly on all-digit text whose accumulated
value stays within `uintMax`, and then computes that value. -/
lemma parseUintLoop_spec (ds : List Char) (acc n : ℕ) (hacc : acc ≤ uintMax) :
    parseUintLoop acc ds = some n ↔
      (ds.all Char.isDigit = true ∧
       n = ds.foldl (fun a c => a * 10 + (c.toNat - 48)) acc ∧
       ds.foldl (fun a c => a * 10 + (c.toNat - 48)) acc ≤ uintMax) := by
  induction ds generalizing acc n with
  | nil =>
    simp only [parseUintLoop, List.all_nil, List.foldl_nil, Option.some.injEq,
      true_and]
    constructor
    · rintro rfl; exact ⟨rfl, hacc⟩
    · rintro ⟨rfl, -⟩; rfl
  | cons c rest ih =>
    by_cases hd : c.isDigit
    · by_cases hover : acc ≥ uintCutoff ∨ acc * 10 + (c.toNat - 48) > uintMax
      · have hcut : uintMax < uintCutoff * 10 := by decide
        have h1 : uintMax < acc * 10 + (c.toNat - 48) := by
          rcases hover with h | h
          · have : uintCutoff * 10 ≤ acc * 10 := by omega
            omega
          · omega
        have h2 := digitsFold_ge rest (acc * 10 + (c.toNat - 48))
        simp only [parseUintLoop, hd, if_true, hover, if_true, List.all_cons,
          List.foldl_cons]
        constructor
        · intro h; cases h
        · rintro ⟨-, -, hle⟩; omega
      · push_neg at hover
        simp only [parseUintLoop, hd, if_true, if_neg (by omega :
            ¬ (acc ≥ uintCutoff ∨ acc * 10 + (c.toNat - 48) > uintMax)),
          List.all_cons, List.foldl_cons, hd, Bool.true_and]
        exact ih (acc * 10 + (c.toNat - 48)) n (by omega)
    · simp only [parseUintLoop, hd, if_false, List.all_cons]
      constructor
      · intro h; cases h
      · rintro ⟨h, -⟩
        rw [Bool.and_eq_true] at h
        exact absurd h.1 (by decide)

/-- `ParseUint64` succeeds exactly on nonempty all-digit text denoting a
value at most `2^64 - 1`, and then returns that value. -/
lemma ParseUint64_spec (ds : List Char) (n : ℕ) :
    ParseUint64 ds = some n ↔
      (ds ≠ [] ∧ ds.all Char.isDigit = true ∧ n = digitsToNat ds ∧
       digitsToNat ds ≤ uintMax) := by
  cases ds with
  | nil => simp [ParseUint64]
  | cons c rest =>
    rw [ParseUint64]
    rw [parseUintLoop_spec _ 0 n (by decide)]
    simp only [digitsToNat, ne_eq, List.cons_ne_nil, not_false_eq_true, true_and]
    exact fun h => List.noConfusion h

/-- C9 (amended): `SanitizeIntValue` has a single coercion tier — Go
`strconv.ParseInt(s, 10, 64)` — with no bool fallback and *no* null-sentinel
tier: it succeeds exactly on optionally-signed decimal digit strings whose
value fits a signed 64-bit integer (the count of milliseconds since epoch),
and `"<nil>"`, booleans and float syntax are errors. -/
theorem sanitizeIntValue_single_tier (s : String) (v : ℤ) :
    (SanitizeIntValue s = .ok v ↔
      (decIntSyntaxOk s = true ∧ v = decIntVal s ∧
       -((2 : ℤ) ^ 63) ≤ v ∧ v ≤ 2 ^ 63 - 1)) ∧
    (SanitizeIntValue "<nil>").isError = true ∧
    (SanitizeIntValue "true").isError = true ∧
    (SanitizeIntValue "3.5").isError = true ∧
    (SanitizeIntValue "").isError = true := by
  refine ⟨?_, by decide, by decide, by decide, by decide⟩
  have hok : SanitizeIntValue s = .ok v ↔ ParseInt64 s = some v := by
    cases h : ParseInt64 s with
    | none => simp [SanitizeIntValue, h]
    | some w => simp [SanitizeIntValue, h]
  rw [hok]
  have e63 : (2 : ℤ) ^ 63 = 9223372036854775808 := by norm_num
  have eMax : uintMax = 18446744073709551615 := by norm_num [uintMax]
  cases hs : s.data with
  | nil =>
    simp [ParseInt64, hs, decIntSyntaxOk, splitSign]
  | cons c cs =>
    rcases hsp : splitSign (c :: cs) with ⟨neg, ds⟩
    have hsyn : decIntSyntaxOk s = true ↔
        (ds ≠ [] ∧ ds.all Char.isDigit = true) := by
      simp [decIntSyntaxOk, hs, hsp]
    have hval : decIntVal s =
        (if neg then -(digitsToNat ds : ℤ) else (digitsToNat ds : ℤ)) := by
      simp [decIntVal, hs, hsp]
    cases h2 : ParseUint64 ds with
    | none =>
      have hno : ¬ (ds ≠ [] ∧ ds.all Char.isDigit = true ∧
          digitsToNat ds = digitsToNat ds ∧ digitsToNat ds ≤ uintMax) := by
        intro hy
        rw [← ParseUint64_spec ds (digitsToNat ds)] at hy
        rw [h2] at hy
        cases hy
      simp only [ParseInt64, hs, hsp, h2]
      constructor
      · intro h; cases h
      · rintro ⟨h1, h3, h4, h5⟩
        rw [hsyn] at h1
        rw [hval] at h3
        exfalso
        apply hno
        refine ⟨h1.1, h1.2, rfl, ?_⟩
        cases neg with
        | false => simp only [if_false, Bool.false_eq_true] at h3; omega
        | true => simp only [if_true] at h3; omega
    | some un =>
      have hspec := (ParseUint64_spec ds un).mp h2
      obtain ⟨hne, hall, hun, hle⟩ := hspec
      simp only [ParseInt64, hs, hsp, h2]
      rw [hsyn, hval]
      cases neg with
      | false =>
        simp only [Bool.false_eq_true, Bool.true_eq_false, false_and, if_false,
          eq_self_iff_true, true_and, if_true]
        by_cases hr : un ≥ 2 ^ 63
        · rw [if_pos hr]
          constructor
          · intro h; cases h
          · rintro ⟨-, h3, -, h5⟩; exfalso; omega
        · rw [if_neg hr, Option.some.injEq]
          constructor
          · rintro rfl
            exact ⟨⟨hne, hall⟩, by omega, by omega, by omega⟩
          · rintro ⟨-, h3, -, -⟩; omega
      | true =>
        simp only [Bool.false_eq_true, Bool.true_eq_false, false_and, if_false,
          eq_self_iff_true, true_and, if_true]
        by_cases hr : un > 2 ^ 63
        · rw [if_pos hr]
          constructor
          · intro h; cases h
          · rintro ⟨-, h3, h4, -⟩; exfalso; omega
        · rw [if_neg hr, Option.some.injEq]
          constructor
          · rintro rfl
            exact ⟨⟨hne, hall⟩, by omega, by omega, by omega⟩
          · rintro ⟨-, h3, -, -⟩; omega

/-- C9 counterexample: the claim keeps the null-sentinel tier, but
`SanitizeIntValue "<nil>"` is an error — only the float sanitizer tolerates
the sentinel. -/
theorem sanitizeIntValue_nil_cex :
    (SanitizeIntValue "<nil>").isError = true ∧
    SanitizeValue "<nil>" = .ok .nan := by
  refine ⟨by decide, by decide⟩

/-- Once the first result has been seen, the scrape loop ignores the rest
of the stream. -/
lemma scrapeLoop_after_first (results : List JsonPathResult)
    (acc : Option GoFloat) : scrapeLoop false acc results = acc := by
  induction results with
  | nil => rfl
  | cons r rest ih => simp [scrapeLoop, ih]

/-- C3 (amended): scalar extraction in `ValueScraper.Scrape`
(src/jsonexporter/scraper.go) uses the *first* matching value and ignores
every later match ("ignoring non-first value"); the last-match policy is
only the documented behaviour of the k8s-jsonpath `extractValue`, whose
engine is an external library. -/
theorem valueScraper_first_match (r : JsonPathResult)
    (rest : List JsonPathResult) :
    ValueScraperScrape (r :: rest) = scrapeResultValue r ∧
    ValueScraperScrape (r :: rest) = ValueScraperScrape [r] := by
  constructor
  · rw [ValueScraperScrape, scrapeLoop, if_pos rfl, scrapeLoop_after_first]
    cases scrapeResultValue r <;> rfl
  · rw [ValueScraperScrape, ValueScraperScrape, scrapeLoop, scrapeLoop,
      if_pos rfl, if_pos rfl, scrapeLoop_after_first]
    rfl

/-- C3 counterexample: on a stream with two numeric matches `1` then `2`,
the scraper yields 1.0 (the first), not 2.0 (the last) — later matches do
not win. -/
theorem valueScraper_lastMatch_cex :
    ValueScraperScrape
        [⟨.jNumber, "1".data⟩, ⟨.jNumber, "2".data⟩] = some (.finite 1) ∧
    ValueScraperScrape
        [⟨.jNumber, "1".data⟩, ⟨.jNumber, "2".data⟩] ≠ some (.finite 2) ∧
    scrapeResultValue ⟨.jNumber, "2".data⟩ = some (.finite 2) := by
  refine ⟨by decide, by decide, by decide⟩

/-- C7 (amended): with a converter configured for the descriptor's
valuePath, the extracted value is lower-cased before lookup — `"ACTIVE"`,
`"Active"` and `"active"` convert identically through a mapping keyed
`"active"` — and a value whose lower-cased form is not a key of the mapping
passes through to sanitization *lower-cased* (not unchanged). -/
theorem valueConverter_lowercase
    (conv : List (String × List (String × String)))
    (path value : String) (mapping : List (String × String))
    (hm : conv.find? (fun p => p.1 = path) = some (path, mapping)) :
    ((∀ mapped, alistLookup mapping (stringsToLower value) = some mapped →
        applyValueConverter (some conv) path value = mapped) ∧
     (alistLookup mapping (stringsToLower value) = none →
        applyValueConverter (some conv) path value = stringsToLower value)) ∧
    (applyValueConverter (some [("p", [("active", "1")])]) "p" "ACTIVE" = "1" ∧
     applyValueConverter (some [("p", [("active", "1")])]) "p" "Active" = "1" ∧
     applyValueConverter (some [("p", [("active", "1")])]) "p" "active" = "1") := by
  refine ⟨⟨?_, ?_⟩, by decide, by decide, by decide⟩
  · intro mapped hl
    simp [applyValueConverter, hm, hl]
  · intro hl
    simp [applyValueConverter, hm, hl]

/-- C7 witness: an unmapped value at the concrete input `"BANANA"` flows to
sanitization lower-cased. -/
theorem valueConverter_lowercase_witness :
    applyValueConverter (some [("p", [("active", "1")])]) "p" "BANANA" =
      "banana" :=
  ((valueConverter_lowercase [("p", [("active", "1")])] "p" "BANANA"
      [("active", "1")] (by decide)).1.2 (by decide)).trans (by decide)

/-- C7 counterexample: with a converter configured for the valuePath, the
unmapped value `"<NIL>"` does not pass through unchanged — it flows on as
`"<nil>"`, observably changing sanitization from an error to a NaN
success. -/
theorem valueConverter_unchanged_cex :
    applyValueConverter (some [("p", [("active", "1")])]) "p" "<NIL>" =
      "<nil>" ∧
    "<nil>" ≠ "<NIL>" ∧
    SanitizeValue "<nil>" = .ok .nan ∧
    (SanitizeValue "<NIL>").isError = true := by
  refine ⟨by decide, by decide, by decide, by decide⟩

/-- A concrete CEL context in which expression compilation reports issues,
while `json.Unmarshal` and `cel.NewEnv` succeed (so the Go `err` variable
holds nil). -/
def celIssueCtx : CELCtx Unit Unit Unit Unit :=
  { unmarshalObj := .ok [("a", Json.num 1)]
    newEnv := .ok ()
    compile := fun _ _ => ((), some "compile issue")
    program := fun _ _ => .ok ()
    eval := fun _ => .ok ()
    fmtV := fun _ => ""
    valueToJSON := fun _ => .ok "" }

/-- C8: when CEL compilation reports issues, `extractValueCEL` executes
`return "", err` with `err` still the nil error of the preceding
`cel.NewEnv` call — the caller receives success with an empty value, not
the non-nil error the spec promises for compile failures. -/
theorem extractValueCEL_compileIssue_nilError :
    (celIssueCtx.compile () "1 +").2 = some "compile issue" ∧
    extractValueCEL celIssueCtx "1 +" false = .ok "" ∧
    (extractValueCEL celIssueCtx "1 +" false).isError = false := by
  refine ⟨rfl, rfl, rfl⟩

/-- A failing per-element stage (re-marshal, value extraction, or
sanitization) makes `processElement` skip the element (`continue`). -/
lemma processElement_none_of_fail (E : Engine) (m : JSONMetric) (bad : Json)
    (h : (∃ e, E.marshal bad = .error e) ∨
         (∃ e, extractDynamicValue E bad m.valueJSONPath = .error e) ∨
         (∀ value, extractDynamicValue E bad m.valueJSONPath = .ok value →
            (SanitizeValue value).isError = true)) :
    processElement E m bad = none := by
  unfold processElement
  cases hm : E.marshal bad with
  | error e => rfl
  | ok jdata =>
    cases hv : extractDynamicValue E bad m.valueJSONPath with
    | error e => simp
    | ok value =>
      cases hsv : SanitizeValue value with
      | error e => simp [hsv]
      | ok f =>
        exfalso
        rcases h with ⟨e, he⟩ | ⟨e, he⟩ | hsan
        · rw [hm] at he; cases he
        · rw [hv] at he; cases he
        · have hx := hsan value hv
          rw [hsv] at hx
          simp [Except.isError] at hx

/-- The per-element loop distributes over list append. -/
lemma collectObjectElems_append (E : Engine) (m : JSONMetric)
    (l1 l2 : List Json) :
    collectObjectElems E m (l1 ++ l2) =
      collectObjectElems E m l1 ++ collectObjectElems E m l2 := by
  induction l1 with
  | nil => rfl
  | cons d rest ih =>
    rw [List.cons_append, collectObjectElems, collectObjectElems]
    cases processElement E m d <;> simp [ih]

/-- C2: in the object branch, a re-marshal failure, value-extraction
failure or sanitization failure on one element skips only that element:
the loop continues, and the samples of the surrounding elements are still
emitted, in document order. -/
theorem objectScrape_element_isolation (E : Engine) (m : JSONMetric)
    (pre post : List Json) (bad : Json)
    (h : (∃ e, E.marshal bad = .error e) ∨
         (∃ e, extractDynamicValue E bad m.valueJSONPath = .error e) ∨
         (∀ value, extractDynamicValue E bad m.valueJSONPath = .ok value →
            (SanitizeValue value).isError = true)) :
    collectObjectElems E m (pre ++ bad :: post) =
      collectObjectElems E m pre ++ collectObjectElems E m post := by
  have hb := processElement_none_of_fail E m bad h
  rw [collectObjectElems_append]
  congr 1
  simp [collectObjectElems, hb]

/-- A small serializer used only to build concrete engines for witnesses. -/
def jsonShow : Json → String
  | .null => "null"
  | .bool true => "true"
  | .bool false => "false"
  | .str s => s
  | .num q => if q = 7 then "7" else if q = 8 then "8" else if q = 1 then "1" else "9"
  | .arr _ => "array"
  | .obj _ => "object"

/-- A concrete engine for witnesses: extraction echoes the marshalled
document back, fails on the document `"null"` and on the path
`"failPath"`; unmarshalling recognizes one fixed array. -/
def testEngine : Engine :=
  { extract := fun data path _ =>
      if data = "null" ∨ path = "failPath" then .error "not found"
      else .ok data
    marshal := fun j => .ok (jsonShow j)
    unmarshalArr := fun s =>
      if s = "collection" then .ok [Json.num 7, Json.null, Json.num 8]
      else .error "unexpected end of JSON input" }

/-- A concrete object-type descriptor for witnesses. -/
def testObjectMetric : JSONMetric :=
  { desc := { name := "example_value_active", help := "", variableLabels := [] }
    type := "object"
    engineType := "jsonpath"
    keyJSONPath := "k"
    valueJSONPath := "v"
    labelsJSONPaths := []
    valueType := "untyped"
    epochTimestampJSONPath := "" }

/-- C2 witness: with the middle element failing value extraction, the two
surrounding elements' samples are still emitted, in order. -/
theorem objectScrape_element_isolation_witness :
    collectObjectElems testEngine testObjectMetric
        ([Json.num 7] ++ Json.null :: [Json.num 8]) =
      collectObjectElems testEngine testObjectMetric [Json.num 7] ++
        collectObjectElems testEngine testObjectMetric [Json.num 8] :=
  objectScrape_element_isolation testEngine testObjectMetric
    [Json.num 7] [Json.num 8] Json.null
    (Or.inr (Or.inl ⟨"value not found for path: v", by decide⟩))

example :
    (collectObjectElems testEngine testObjectMetric
      [Json.num 7, Json.null, Json.num 8]).length = 2 := by decide

/-- The per-element loop emits at most one sample per element. -/
lemma collectObjectElems_length_le (E : Engine) (m : JSONMetric)
    (l : List Json) :
    (collectObjectElems E m l).length ≤ l.length := by
  induction l with
  | nil => simp [collectObjectElems]
  | cons d rest ih =>
    rw [collectObjectElems]
    cases processElement E m d with
    | none => exact le_trans ih (Nat.le_succ _)
    | some s => simpa using Nat.succ_le_succ ih

/-- A per-descriptor sample bound lifts to the whole collect loop. -/
lemma Collect_length_le (E : Engine) (data : String) (N : ℕ)
    (descs : List JSONMetric)
    (h : ∀ d ∈ descs, (collectMetric E data d).length ≤ N) :
    (Collect E data descs).length ≤ N * descs.length := by
  induction descs with
  | nil => simp [Collect]
  | cons d rest ih =>
    have hstep : Collect E data (d :: rest) =
        collectMetric E data d ++ Collect E data rest := by
      simp [Collect]
    rw [hstep, List.length_append, List.length_cons, Nat.mul_succ]
    have h1 := h d (by simp)
    have h2 := ih fun d' hd' => h d' (by simp [hd'])
    omega

/-- The descriptors `createForMetric` builds for an object-type metric. -/
def objectDescs (m : ConfigMetric) : List JSONMetric :=
  m.values.map fun sv =>
    { desc := { name := MakeMetricName [m.name, sv.1], help := m.help,
                variableLabels := m.labels.map Prod.fst },
      type := "object",
      engineType := m.engine,
      keyJSONPath := m.path,
      valueJSONPath := sv.2,
      labelsJSONPaths := m.labels.map Prod.snd,
      valueType := resolveValueType m.valueType,
      epochTimestampJSONPath := m.epochTimestamp }

/-- `createForMetric` on an object-type metric yields `objectDescs`. -/
lemma createForMetric_object (m : ConfigMetric) (ht : m.type = "object") :
    createForMetric m = .ok (objectDescs m) := by
  unfold createForMetric objectDescs
  rw [ht]
  simp

/-- C4: an object-type metric with M `values` entries expands to exactly M
descriptors — the i-th named by joining the base name and the i-th
sub-value key with `_`, carrying that key's expression as its valuePath —
and over a matched collection of N elements the collector emits at most
N·M samples for the metric. -/
theorem objectScrape_fanout (c : ConfigModule) (m : ConfigMetric)
    (hms : c.metrics = [m]) (ht : m.type = "object") :
    ∃ descs, CreateMetricsList c = .ok descs ∧
      descs.length = m.values.length ∧
      (∀ i (hi : i < descs.length) (hj : i < m.values.length),
        (descs.get ⟨i, hi⟩).desc.name =
          m.name ++ "_" ++ (m.values.get ⟨i, hj⟩).1 ∧
        (descs.get ⟨i, hi⟩).valueJSONPath = (m.values.get ⟨i, hj⟩).2) ∧
      (∀ (E : Engine) (data values : String) (elems : List Json),
        E.extract data m.path true = .ok values →
        E.unmarshalArr values = .ok elems →
        (Collect E data descs).length ≤ elems.length * m.values.length) := by
  have hcl : CreateMetricsList c = .ok (objectDescs m) := by
    unfold CreateMetricsList
    rw [hms]
    unfold createMetricsListAux
    rw [createForMetric_object m ht]
    simp [createMetricsListAux]
  refine ⟨objectDescs m, hcl, by simp [objectDescs], ?_, ?_⟩
  · intro i hi hj
    constructor
    · simp only [objectDescs]
      rw [List.get_map]
      rfl
    · simp only [objectDescs]
      rw [List.get_map]
  · intro E data values elems hex hun
    have hbound : ∀ d ∈ objectDescs m,
        (collectMetric E data d).length ≤ elems.length := by
      intro d hd
      rw [objectDescs] at hd
      obtain ⟨sv, hsv, hdef⟩ := List.mem_map.mp hd
      have htype : d.type = "object" := by rw [← hdef]
      have hkey : d.keyJSONPath = m.path := by rw [← hdef]
      have hcm : collectMetric E data d = collectObjectElems E d elems := by
        unfold collectMetric collectObjectBranch
        rw [htype, hkey]
        simp only [if_neg (by decide : ¬ (("object" : String) = "value")),
          if_pos (rfl : ("object" : String) = "object"), hex, hun, if_true,
          eq_self_iff_true]
      rw [hcm]
      exact collectObjectElems_length_le E d elems
    have := Collect_length_le E data elems.length (objectDescs m) hbound
    have hlen : (objectDescs m).length = m.values.length := by
      simp [objectDescs]
    rw [hlen] at this
    exact this

/-- A concrete object-type metric configuration with two sub-values. -/
def exampleObjectConfig : ConfigMetric :=
  { name := "example", type := "object", help := "", path := "k",
    labels := [], values := [("a", "v"), ("b", "v")],
    engine := "jsonpath", epochTimestamp := "", valueType := "gauge" }

/-- C4 witness: the fan-out at a concrete two-sub-value object metric. -/
theorem objectScrape_fanout_witness :
    ∃ descs, CreateMetricsList ⟨[exampleObjectConfig]⟩ = .ok descs ∧
      descs.length = exampleObjectConfig.values.length ∧
      (∀ i (hi : i < descs.length)
          (hj : i < exampleObjectConfig.values.length),
        (descs.get ⟨i, hi⟩).desc.name =
          exampleObjectConfig.name ++ "_" ++
            (exampleObjectConfig.values.get ⟨i, hj⟩).1 ∧
        (descs.get ⟨i, hi⟩).valueJSONPath =
          (exampleObjectConfig.values.get ⟨i, hj⟩).2) ∧
      (∀ (E : Engine) (data values : String) (elems : List Json),
        E.extract data exampleObjectConfig.path true = .ok values →
        E.unmarshalArr values = .ok elems →
        (Collect E data descs).length ≤
          elems.length * exampleObjectConfig.values.length) :=
  objectScrape_fanout ⟨[exampleObjectConfig]⟩ exampleObjectConfig rfl rfl

/-- `timestampMetric` only ever touches the timestamp field. -/
lemma timestampMetric_fields (E : Engine) (m : JSONMetric) (data : String)
    (pm : Sample) :
    (timestampMetric E m data pm).value = pm.value ∧
    (timestampMetric E m data pm).labelValues = pm.labelValues ∧
    (timestampMetric E m data pm).desc = pm.desc ∧
    (timestampMetric E m data pm).valueType = pm.valueType := by
  unfold timestampMetric
  split
  · exact ⟨rfl, rfl, rfl, rfl⟩
  · split
    · exact ⟨rfl, rfl, rfl, rfl⟩
    · split
      · exact ⟨rfl, rfl, rfl, rfl⟩
      · exact ⟨rfl, rfl, rfl, rfl⟩

/-- C5: once the key value extracts and sanitizes, the value branch emits
exactly one sample carrying that value; each label path is evaluated
independently — a failing path contributes the empty string at its
position, a succeeding one its extracted text — and no label failure
aborts the sample or disturbs the other positions. -/
theorem label_degrade_not_abort (E : Engine) (data : String)
    (m : JSONMetric) (v : String) (f : GoFloat)
    (hv : E.extract data m.keyJSONPath false = .ok v)
    (hf : SanitizeValue v = .ok f) :
    ∃ s, collectValueBranch E data m = [s] ∧ s.value = f ∧
      s.labelValues = extractLabels E data m.labelsJSONPaths ∧
      s.labelValues.length = m.labelsJSONPaths.length ∧
      ∀ i p, m.labelsJSONPaths.get? i = some p →
        ((∀ e, E.extract data p false = .error e →
            s.labelValues.get? i = some "") ∧
         (∀ r, E.extract data p false = .ok r →
            s.labelValues.get? i = some r)) := by
  refine ⟨timestampMetric E m data
    (MustNewConstMetric m.desc m.valueType f
      (extractLabels E data m.labelsJSONPaths)), ?_, ?_, ?_, ?_, ?_⟩
  · unfold collectValueBranch
    simp only [hv, hf]
  · exact (timestampMetric_fields E m data _).1
  · exact (timestampMetric_fields E m data _).2.1
  · rw [(timestampMetric_fields E m data _).2.1]
    simp [extractLabels, MustNewConstMetric]
  · intro i p hp
    rw [(timestampMetric_fields E m data _).2.1]
    constructor
    · intro e he
      simp only [MustNewConstMetric, extractLabels]
      rw [List.get?_map, hp]
      simp [he]
    · intro r hr
      simp only [MustNewConstMetric, extractLabels]
      rw [List.get?_map, hp]
      simp [hr]

/-- A concrete value-type descriptor with one good and one failing label
path. -/
def testValueMetric : JSONMetric :=
  { desc := { name := "example_global_value", help := "",
              variableLabels := ["a", "b"] }
    type := "value"
    engineType := "jsonpath"
    keyJSONPath := "k"
    valueJSONPath := ""
    labelsJSONPaths := ["k", "failPath"]
    valueType := "untyped"
    epochTimestampJSONPath := "" }

/-- C5 witness: at a concrete document, the sample is emitted with value
7.0 even though the second label path fails. -/
theorem label_degrade_not_abort_witness :
    ∃ s, collectValueBranch testEngine "7" testValueMetric = [s] ∧
      s.value = .finite 7 ∧
      s.labelValues =
        extractLabels testEngine "7" testValueMetric.labelsJSONPaths ∧
      s.labelValues.length = testValueMetric.labelsJSONPaths.length ∧
      ∀ i p, testValueMetric.labelsJSONPaths.get? i = some p →
        ((∀ e, testEngine.extract "7" p false = .error e →
            s.labelValues.get? i = some "") ∧
         (∀ r, testEngine.extract "7" p false = .ok r →
            s.labelValues.get? i = some r)) :=
  label_degrade_not_abort testEngine "7" testValueMetric "7" (.finite 7)
    (by decide) (by decide)

/-- C6: with a non-empty `epochTimestampPath`, a failing extraction or a
failing integer sanitization leaves the metric unchanged (the sample is
still emitted, merely without a timestamp override), while success stamps
the extracted value as milliseconds since epoch; and a sanitized value
branch still emits exactly one sample. -/
theorem timestamp_fallback (E : Engine) (m : JSONMetric) (data : String)
    (pm : Sample) (hne : m.epochTimestampJSONPath ≠ "") :
    (∀ e, E.extract data m.epochTimestampJSONPath false = .error e →
        timestampMetric E m data pm = pm) ∧
    (∀ ts, E.extract data m.epochTimestampJSONPath false = .ok ts →
        (SanitizeIntValue ts).isError = true →
        timestampMetric E m data pm = pm) ∧
    (∀ ts t, E.extract data m.epochTimestampJSONPath false = .ok ts →
        SanitizeIntValue ts = .ok t →
        timestampMetric E m data pm = { pm with timestampMs := some t }) ∧
    (∀ v f, E.extract data m.keyJSONPath false = .ok v →
        SanitizeValue v = .ok f →
        (collectValueBranch E data m).length = 1) := by
  refine ⟨?_, ?_, ?_, ?_⟩
  · intro e he
    unfold timestampMetric
    rw [if_neg hne]
    simp [he]
  · intro ts hts hs
    unfold timestampMetric
    rw [if_neg hne]
    cases hsv : SanitizeIntValue ts with
    | error e => simp [hts, hsv]
    | ok t =>
      rw [hsv] at hs
      simp [Except.isError] at hs
  · intro ts t hts hst
    unfold timestampMetric
    rw [if_neg hne]
    simp [hts, hst]
  · intro v f hv hf
    unfold collectValueBranch
    simp [hv, hf]

/-- A concrete descriptor whose timestamp path fails to extract. -/
def testTsMetric : JSONMetric :=
  { desc := { name := "example_global_value", help := "",
              variableLabels := [] }
    type := "value"
    engineType := "jsonpath"
    keyJSONPath := "k"
    valueJSONPath := ""
    labelsJSONPaths := []
    valueType := "untyped"
    epochTimestampJSONPath := "failPath" }

/-- A concrete already-built sample. -/
def testSample : Sample :=
  MustNewConstMetric ⟨"example_global_value", "", []⟩ "untyped" (.finite 7) []

/-- C6 witness: a failing timestamp path at a concrete input leaves the
sample unchanged. -/
theorem timestamp_fallback_witness :
    timestampMetric testEngine testTsMetric "7" testSample = testSample :=
  (timestamp_fallback testEngine testTsMetric "7" testSample
    (by decide)).1 "not found" (by decide)

/-- Each branch of `createForMetric` builds the variable-label names and
the label paths from the same `metric.Labels` entries, so the two lists
always have the same length. -/
lemma createForMetric_label_parallel (metric : ConfigMetric)
    (ms1 : List JSONMetric) (h : createForMetric metric = .ok ms1) :
    ∀ jm ∈ ms1, jm.labelsJSONPaths.length = jm.desc.variableLabels.length := by
  intro jm hjm
  unfold createForMetric at h
  split_ifs at h with h1 h2
  · injection h with h
    subst h
    simp only [List.mem_singleton] at hjm
    subst hjm
    simp
  · injection h with h
    subst h
    obtain ⟨sv, hsv, hdef⟩ := List.mem_map.mp hjm
    rw [← hdef]
    simp

/-- The parallel-length invariant of `createForMetric` holds for every
descriptor the whole builder emits. -/
lemma createMetricsList_label_parallel :
    ∀ (ms : List ConfigMetric) (descs : List JSONMetric),
      createMetricsListAux ms = .ok descs →
      ∀ jm ∈ descs,
        jm.labelsJSONPaths.length = jm.desc.variableLabels.length := by
  intro ms
  induction ms with
  | nil =>
    intro descs h jm hjm
    rw [createMetricsListAux] at h
    injection h with h
    subst h
    cases hjm
  | cons metric rest ih =>
    intro descs h jm hjm
    cases hcf : createForMetric metric with
    | error e => rw [createMetricsListAux, hcf] at h; cases h
    | ok ms1 =>
      cases hrest : createMetricsListAux rest with
      | error e => rw [createMetricsListAux, hcf, hrest] at h; cases h
      | ok more =>
        rw [createMetricsListAux, hcf, hrest] at h
        injection h with h
        subst h
        rcases List.mem_append.mp hjm with hmem | hmem
        · exact createForMetric_label_parallel metric ms1 hcf jm hmem
        · exact ih more hrest jm hmem

/-- C10: label extraction is total — one value per path, in path order,
empty string at every failing position (a document that fails to parse
makes every extraction fail, which still yields empty strings) — dynamic
label extraction likewise returns one value per path, and every descriptor
the builder emits has as many label paths as variable-label names, so
`MustNewConstMetric`'s panic condition is never reached by the
collector. -/
theorem labelCount_safety :
    (∀ (E : Engine) (data : String) (paths : List String),
      (extractLabels E data paths).length = paths.length ∧
      (∀ i p, paths.get? i = some p →
        ((∀ e, E.extract data p false = .error e →
            (extractLabels E data paths).get? i = some "") ∧
         (∀ r, E.extract data p false = .ok r →
            (extractLabels E data paths).get? i = some r)))) ∧
    (∀ (E : Engine) (d : Json) (paths : List String),
      (extractDynamicLabels E d paths).length = paths.length) ∧
    (∀ (c : ConfigModule) (descs : List JSONMetric),
      CreateMetricsList c = .ok descs → ∀ jm ∈ descs,
        jm.labelsJSONPaths.length = jm.desc.variableLabels.length ∧
        ∀ (E : Engine) (data : String),
          ¬ constMetricPanics jm.desc
            (extractLabels E data jm.labelsJSONPaths)) := by
  refine ⟨?_, ?_, ?_⟩
  · intro E data paths
    refine ⟨by simp [extractLabels], ?_⟩
    intro i p hp
    constructor
    · intro e he
      simp only [extractLabels]
      rw [List.get?_map, hp]
      simp [he]
    · intro r hr
      simp only [extractLabels]
      rw [List.get?_map, hp]
      simp [hr]
  · intro E d paths
    simp [extractDynamicLabels]
  · intro c descs h jm hjm
    have hpar := createMetricsList_label_parallel c.metrics descs h jm hjm
    refine ⟨hpar, ?_⟩
    intro E data
    unfold constMetricPanics
    simp [extractLabels]
    exact hpar
